import Mathlib

/-!
Verification of `src/utils.rs` from flat-manager-hooks.

Strings are modelled as `List Char` (so that all definitions are
kernel-computable); Rust functions that can panic (`unwrap`) are modelled
as `Option`-returning functions where `none` marks the panic.
-/

/-- Strings, modelled as lists of characters. -/
abbrev Str := List Char

/-- Rust `str::split(sep)` for a single-character separator:
splitting the empty string yields `[[]]`, and every occurrence of `sep`
starts a new (possibly empty) chunk. -/
def splitChar (sep : Char) : Str → List Str
  | [] => [[]]
  | c :: rest =>
    if c = sep then [] :: splitChar sep rest
    else
      match splitChar sep rest with
      | [] => [[c]]
      | w :: ws => (c :: w) :: ws

/-- Rust `Vec::join(sep)` for string chunks and a single-character separator. -/
def joinSep (sep : Char) : List Str → Str
  | [] => []
  | [w] => w
  | w :: ws => w ++ sep :: joinSep sep ws

/-- `splitChar` never returns the empty list of chunks. -/
theorem splitChar_ne_nil (sep : Char) (s : Str) : splitChar sep s ≠ [] := by
  cases s with
  | nil => simp [splitChar]
  | cons c rest =>
    simp only [splitChar]
    by_cases h : c = sep
    · simp [h]
    · simp only [h, if_false]
      cases splitChar sep rest <;> simp

/-- `arch_from_ref` from `src/utils.rs`:
`refstring.split('/').nth(2).unwrap().to_string()`.
`none` models the `unwrap` panic. -/
def arch_from_ref (refstring : Str) : Option Str :=
  (splitChar '/' refstring).get? 2

/-- `app_id_from_ref` from `src/utils.rs`: take segment 1 of the
`'/'`-split, split it on `'.'`, and if the last dot-component is exactly
`Sources`, `Debug` or `Locale`, drop that last component and re-join,
otherwise return the segment unchanged. `none` models the `unwrap` panic. -/
def app_id_from_ref (refstring : Str) : Option Str :=
  match (splitChar '/' refstring).get? 1 with
  | none => none
  | some ref_id =>
    let id_parts := splitChar '.' ref_id
    match id_parts.getLast? with
    | none => none
    | some last =>
      if [("Sources").data, ("Debug").data, ("Locale").data].contains last then
        some (joinSep '.' (id_parts.take (id_parts.length - 1)))
      else
        some ref_id

/-- Claim C7: `arch_from_ref` on `app/org.example.App/x86_64/stable` returns
`x86_64`; `app_id_from_ref` on the same ref returns `org.example.App`; and on
a ref whose second segment is `org.example.App.Sources` it returns
`org.example.App`, the trailing `Sources` component being stripped. -/
theorem ref_parsing_examples :
    arch_from_ref ("app/org.example.App/x86_64/stable").data
      = some ("x86_64").data ∧
    app_id_from_ref ("app/org.example.App/x86_64/stable").data
      = some ("org.example.App").data ∧
    app_id_from_ref ("app/org.example.App.Sources/x86_64/stable").data
      = some ("org.example.App").data := by
  decide

/-- Claim C10: `app_id_from_ref` strips exactly one trailing dot-component
and only when that component is exactly `Sources`, `Debug` or `Locale`:
`a.Debug.Sources` becomes `a.Debug` (no repeated stripping), a second
segment that is the single component `Sources` becomes the empty string,
and a near-miss such as `a.sources` is left unchanged. -/
theorem app_id_strip_once :
    app_id_from_ref ("app/a.Debug.Sources/x86_64/stable").data
      = some ("a.Debug").data ∧
    app_id_from_ref ("app/Sources/x86_64/stable").data
      = some ("").data ∧
    app_id_from_ref ("app/a.sources/x86_64/stable").data
      = some ("a.sources").data := by
  decide

/-- Claim C9: `arch_from_ref` hits the `unwrap` panic (modelled as `none`)
exactly when the ref has fewer than three `/`-separated segments, and
`app_id_from_ref` exactly when it has fewer than two; on a full
four-segment ref both functions return a value. -/
theorem ref_parsing_partiality (s : Str) :
    (arch_from_ref s = none ↔ (splitChar '/' s).length < 3) ∧
    (app_id_from_ref s = none ↔ (splitChar '/' s).length < 2) ∧
    ((splitChar '/' s).length = 4 →
      (arch_from_ref s).isSome ∧ (app_id_from_ref s).isSome) := by
  have harch : arch_from_ref s = none ↔ (splitChar '/' s).length < 3 := by
    unfold arch_from_ref
    rw [List.get?_eq_none]
    omega
  have happ : app_id_from_ref s = none ↔ (splitChar '/' s).length < 2 := by
    cases h : (splitChar '/' s).get? 1 with
    | none =>
      have hlen := List.get?_eq_none.mp h
      simp only [app_id_from_ref, h]
      simpa using by omega
    | some ref_id =>
      have hlen := (List.get?_eq_some.mp h).1
      have hnil := splitChar_ne_nil '.' ref_id
      obtain ⟨last, hlast⟩ :
          ∃ last, (splitChar '.' ref_id).getLast? = some last := by
        cases hq : (splitChar '.' ref_id).getLast? with
        | none => exact absurd (List.getLast?_eq_none_iff.mp hq) hnil
        | some l => exact ⟨l, rfl⟩
      simp only [app_id_from_ref, h, hlast]
      split <;> simp <;> omega
  refine ⟨harch, happ, fun h4 => ⟨?_, ?_⟩⟩
  · rw [← Option.ne_none_iff_isSome]
    intro hc
    have := harch.mp hc
    omega
  · rw [← Option.ne_none_iff_isSome]
    intro hc
    have := happ.mp hc
    omega

/-- Witness for claim C9 at the concrete four-segment ref `app/a/b/c`. -/
theorem ref_parsing_partiality_witness :
    (splitChar '/' ("app/a/b/c").data).length = 4 ∧
    (arch_from_ref ("app/a/b/c").data).isSome ∧
    (app_id_from_ref ("app/a/b/c").data).isSome :=
  ⟨by decide, ((ref_parsing_partiality ("app/a/b/c").data).2.2 (by decide)).1,
   ((ref_parsing_partiality ("app/a/b/c").data).2.2 (by decide)).2⟩

/-- File values stored in a mutable tree (ostree checksum strings). -/
abbrev GStr := Str

/-- In-memory mutable tree with named file entries and named subdirectories.
Modelled from the spec: the ostree `MutableTree` is an external collaborator
"treated as an opaque associative structure" whose consumed capability is
`lookup(name) -> Result<(Option<Value>, Option<SubTree>), Error>`. -/
inductive MutableTree where
  | node (files : List (Str × GStr)) (subdirs : List (Str × MutableTree))

/-- Modelled from the spec: the external tree capability
`lookup(name) -> Result<(Option<Value>, Option<SubTree>), Error>` consumed by
`mtree_lookup`; a name with no entry yields `(none, none)`. -/
def MutableTree.lookup : MutableTree → Str → Option GStr × Option MutableTree
  | .node files subdirs, name => (files.lookup name, subdirs.lookup name)

/-- `mtree_lookup` from `src/utils.rs`: a one-element path is looked up
directly; a longer path descends into the named subtree, erroring with
`subdirectory not found` when the leading segment has no subtree; the empty
path errors with `no path given`. -/
def mtree_lookup : MutableTree → List Str → Except Str (Option GStr × Option MutableTree)
  | mtree, [file] => .ok (mtree.lookup file)
  | mtree, subdir :: rest =>
    match (mtree.lookup subdir).2 with
    | some sub => mtree_lookup sub rest
    | none => .error ("subdirectory not found").data
  | _, [] => .error ("no path given").data

/-- `mtree_lookup_file` from `src/utils.rs`: the file component of
`mtree_lookup`, erroring with `file not found` when it is absent. -/
def mtree_lookup_file (mtree : MutableTree) (path : List Str) : Except Str GStr :=
  match mtree_lookup mtree path with
  | .error e => .error e
  | .ok r =>
    match r.1 with
    | some f => .ok f
    | none => .error ("file not found").data

/-- A tree whose root has subdirectory `a`, with no `b` below it. -/
def treeMissingB : MutableTree :=
  .node [] [(("a").data, .node [(("x").data, ("h1").data)] [])]

/-- A tree with subdirectory chain `a/b` where `b` holds no entry `c`. -/
def treeMissingC : MutableTree :=
  .node [] [(("a").data, .node [] [(("b").data, .node [] [])])]

/-- Claim C8: looking up `a/b/c` where subdirectory `b` is missing yields the
`subdirectory not found` error; the empty path yields the `no path given`
error; the file lookup yields the `file not found` error when `c` is absent
under an existing `b`; and the three error messages are pairwise distinct. -/
theorem mtree_lookup_errors :
    mtree_lookup treeMissingB [("a").data, ("b").data, ("c").data]
      = .error ("subdirectory not found").data ∧
    mtree_lookup treeMissingB [] = .error ("no path given").data ∧
    mtree_lookup_file treeMissingC [("a").data, ("b").data, ("c").data]
      = .error ("file not found").data ∧
    ("subdirectory not found").data ≠ ("no path given").data ∧
    ("subdirectory not found").data ≠ ("file not found").data ∧
    ("no path given").data ≠ ("file not found").data :=
  ⟨rfl, rfl, rfl, by decide, by decide, by decide⟩

/-- Errors reported by the repository's transaction primitives. -/
abbrev GError := Str

/-- The repository transaction primitives invoked by `Transaction`. -/
inductive Prim where
  | prepare
  | commit
  | abort
  deriving DecidableEq

/-- Modelled from the spec: the external repository capability set
`prepare_transaction`, `commit_transaction`, `abort_transaction`, each
returning `Result<(), Error>`; each field is the outcome the repository
reports when that primitive is invoked. -/
structure Repo where
  prepareResult : Except GError Unit
  commitResult : Except GError Unit
  abortResult : Except GError Unit

/-- The `Transaction` guard from `src/utils.rs`: a repository handle plus
the `finished` flag. -/
structure Transaction where
  repo : Repo
  finished : Bool

/-- `Transaction::new` from `src/utils.rs`: invoke `prepare_transaction`;
on failure propagate the error and produce no guard, on success produce a
guard with `finished = false`. The first component lists the repository
primitives invoked during the call. -/
def Transaction.new (repo : Repo) : List Prim × Except GError Transaction :=
  match repo.prepareResult with
  | .error e => ([Prim.prepare], .error e)
  | .ok _ => ([Prim.prepare], .ok { repo := repo, finished := false })

/-- The body of `Transaction::commit` from `src/utils.rs`, before Rust's
drop glue runs on the consumed `self`: invoke `commit_transaction`; on
failure propagate the error leaving `finished` false, on success set
`finished := true`. -/
def Transaction.commitBody (t : Transaction) :
    List Prim × Except GError Unit × Transaction :=
  match t.repo.commitResult with
  | .error e => ([Prim.commit], .error e, t)
  | .ok _ => ([Prim.commit], .ok (), { t with finished := true })

/-- Whether a destructor runs to completion or panics (the `expect`). -/
inductive DropOutcome where
  | returned
  | panicked
  deriving DecidableEq

/-- `Drop for Transaction` from `src/utils.rs`: if `finished` is false,
invoke `abort_transaction` and panic (`expect`) when it reports failure;
otherwise do nothing. -/
def Transaction.drop (t : Transaction) : List Prim × DropOutcome :=
  if t.finished then ([], DropOutcome.returned)
  else
    match t.repo.abortResult with
    | .ok _ => ([Prim.abort], DropOutcome.returned)
    | .error _ => ([Prim.abort], DropOutcome.panicked)

/-- A full call of `Transaction::commit` under Rust semantics: `commit`
takes `self` by value, so the drop glue runs on the guard when the call
returns, whether the underlying commit succeeded or failed. -/
def Transaction.commitCall (t : Transaction) :
    List Prim × Except GError Unit × DropOutcome :=
  let r := t.commitBody
  let d := r.2.2.drop
  (r.1 ++ d.1, r.2.1, d.2)

/-- A repository on which every primitive succeeds. -/
def repoAllOk : Repo :=
  { prepareResult := .ok (), commitResult := .ok (), abortResult := .ok () }

/-- Claim C1: a guard that is successfully constructed and then dropped
without `commit` having been called invokes the abort primitive exactly
once during its destruction and never invokes the commit primitive. -/
theorem guard_abort_on_drop (repo : Repo) (t : Transaction) (ev : List Prim)
    (h : Transaction.new repo = (ev, .ok t)) :
    (t.drop).1.count Prim.abort = 1 ∧ (t.drop).1.count Prim.commit = 0 := by
  cases hp : repo.prepareResult with
  | error e => simp [Transaction.new, hp] at h
  | ok u =>
    simp [Transaction.new, hp] at h
    obtain ⟨-, ht⟩ := h
    subst ht
    cases ha : repo.abortResult <;> simp [Transaction.drop, ha]

/-- Witness for claim C1: the construction and drop of a guard on a
repository whose primitives all succeed. -/
theorem guard_abort_on_drop_witness :
    ((Transaction.drop { repo := repoAllOk, finished := false }).1.count
        Prim.abort = 1) ∧
    ((Transaction.drop { repo := repoAllOk, finished := false }).1.count
        Prim.commit = 0) :=
  guard_abort_on_drop repoAllOk _ [Prim.prepare] rfl

/-- Claim C2: when the underlying commit operation fails, the error is
propagated to the caller, and because the guard was consumed with
`finished` still false, its teardown makes exactly one abort attempt. -/
theorem commit_failure_cleans_up (repo : Repo) (t : Transaction)
    (ev : List Prim) (e : GError)
    (hnew : Transaction.new repo = (ev, .ok t))
    (hfail : repo.commitResult = .error e) :
    (t.commitCall).2.1 = .error e ∧ (t.commitCall).1.count Prim.abort = 1 := by
  cases hp : repo.prepareResult with
  | error e2 => simp [Transaction.new, hp] at hnew
  | ok u =>
    simp [Transaction.new, hp] at hnew
    obtain ⟨-, ht⟩ := hnew
    subst ht
    cases ha : repo.abortResult <;>
      simp [Transaction.commitCall, Transaction.commitBody, Transaction.drop,
        hfail, ha]

/-- A repository whose commit fails with error `boom` while prepare and
abort succeed. -/
def repoCommitFails : Repo :=
  { prepareResult := .ok (),
    commitResult := .error ("boom").data,
    abortResult := .ok () }

/-- Witness for claim C2 on `repoCommitFails`. -/
theorem commit_failure_cleans_up_witness :
    ((Transaction.commitCall { repo := repoCommitFails, finished := false }).2.1
        = .error ("boom").data) ∧
    ((Transaction.commitCall
        { repo := repoCommitFails, finished := false }).1.count Prim.abort = 1) :=
  commit_failure_cleans_up repoCommitFails
    { repo := repoCommitFails, finished := false }
    [Prim.prepare] (("boom").data) rfl rfl

/-- Claim C4: when `commit` is called and the underlying commit succeeds,
the abort primitive is never invoked, neither during the commit call nor
when the consumed guard is dropped at its end. -/
theorem commit_success_no_abort (repo : Repo) (t : Transaction)
    (ev : List Prim)
    (hnew : Transaction.new repo = (ev, .ok t))
    (hok : repo.commitResult = .ok ()) :
    (t.commitCall).2.1 = .ok () ∧ (t.commitCall).1.count Prim.abort = 0 ∧
    (t.commitCall).2.2 = DropOutcome.returned := by
  cases hp : repo.prepareResult with
  | error e2 => simp [Transaction.new, hp] at hnew
  | ok u =>
    simp [Transaction.new, hp] at hnew
    obtain ⟨-, ht⟩ := hnew
    subst ht
    simp [Transaction.commitCall, Transaction.commitBody, Transaction.drop,
      hok]

/-- Witness for claim C4: a successful commit on a repository whose
primitives all succeed. -/
theorem commit_success_no_abort_witness :
    ((Transaction.commitCall { repo := repoAllOk, finished := false }).2.1
        = .ok ()) ∧
    ((Transaction.commitCall { repo := repoAllOk, finished := false }).1.count
        Prim.abort = 0) ∧
    ((Transaction.commitCall { repo := repoAllOk, finished := false }).2.2
        = DropOutcome.returned) :=
  commit_success_no_abort repoAllOk _ [Prim.prepare] rfl rfl

/-- Claim C5: when the abort primitive reports failure during the guard's
destruction-time cleanup, the destructor invokes abort exactly once and
panics (the `expect` halts the program); the destructor has no error
channel, so the failure is neither propagated nor retried. -/
theorem abort_failure_fatal (repo : Repo) (t : Transaction)
    (ev : List Prim) (e : GError)
    (hnew : Transaction.new repo = (ev, .ok t))
    (habort : repo.abortResult = .error e) :
    t.drop = ([Prim.abort], DropOutcome.panicked) := by
  cases hp : repo.prepareResult with
  | error e2 => simp [Transaction.new, hp] at hnew
  | ok u =>
    simp [Transaction.new, hp] at hnew
    obtain ⟨-, ht⟩ := hnew
    subst ht
    simp [Transaction.drop, habort]

/-- A repository whose abort fails with error `bad` while prepare and
commit succeed. -/
def repoAbortFails : Repo :=
  { prepareResult := .ok (),
    commitResult := .ok (),
    abortResult := .error ("bad").data }

/-- Witness for claim C5 on `repoAbortFails`. -/
theorem abort_failure_fatal_witness :
    Transaction.drop { repo := repoAbortFails, finished := false }
      = ([Prim.abort], DropOutcome.panicked) :=
  abort_failure_fatal repoAbortFails
    { repo := repoAbortFails, finished := false }
    [Prim.prepare] (("bad").data) rfl rfl

/-- The loop of `retry` from `src/utils.rs`. The source counts failures
upward in `i` and exits when `i > retry_count`; here the counter is
re-expressed as `remaining = retry_count - i` so the recursion is
structural. `f n` is the outcome of the operation's `n`-th invocation
(0-based). Returns the number of invocations made, the list of sleep
durations in order, and the final result. -/
def retryGo {T E : Type} (f : Nat → Except E T) :
    Nat → Nat → Nat → Nat × List Nat × Except E T
  | remaining, attempt, wait_time =>
    match f attempt with
    | .ok info => (1, [], .ok info)
    | .error e =>
      match remaining with
      | 0 => (1, [], .error e)
      | r + 1 =>
        let res := retryGo f r (attempt + 1) (wait_time * 2)
        (res.1 + 1, wait_time :: res.2.1, res.2.2)

/-- `retry` from `src/utils.rs`: `retry_count = 5` and the initial
`wait_time = 1`, so the operation runs at most `retry_count + 1` times. -/
def retry {T E : Type} (f : Nat → Except E T) : Nat × List Nat × Except E T :=
  retryGo f 5 0 1

/-- Claim C3: an operation that fails on every invocation is invoked
exactly 6 times, the error of the 6th invocation is returned, and the
sleeps are exactly 1, 2, 4, 8, 16 time units in that order. -/
theorem retry_exhaustion {T E : Type} (f : Nat → Except E T) (g : Nat → E)
    (hfail : ∀ n, f n = .error (g n)) :
    retry f = (6, [1, 2, 4, 8, 16], .error (g 5)) := by
  simp [retry, retryGo, hfail]

/-- Witness for claim C3: the operation that fails with its own attempt
index on every invocation. -/
theorem retry_exhaustion_witness :
    retry (fun n => (Except.error n : Except Nat Unit))
      = (6, [1, 2, 4, 8, 16], Except.error 5) :=
  retry_exhaustion (fun n => Except.error n) (fun n => n) (fun _ => rfl)

/-- Claim C6: an operation whose `n`-th invocation succeeds (`n ≤ 6`, all
earlier invocations failing) makes exactly `n` invocations, returns the
success value, and sleeps exactly `n - 1` times with durations
1, 2, ..., 2 ^ (n - 2); in particular failing twice and succeeding on the
third invocation returns the success value after sleeping 1 then 2. -/
theorem retry_success_path {T E : Type} (f : Nat → Except E T) (g : Nat → E)
    (v : T) (n : Nat) (hpos : 0 < n) (hle : n ≤ 6)
    (hfail : ∀ k, k + 1 < n → f k = .error (g k))
    (hsucc : f (n - 1) = .ok v) :
    retry f = (n, (List.range (n - 1)).map (fun j => 2 ^ j), .ok v) := by
  interval_cases n
  · simp at hsucc
    simp [retry, retryGo, hsucc]
  · have h0 := hfail 0 (by omega)
    simp at hsucc
    simp [retry, retryGo, h0, hsucc, List.range_succ]
  · have h0 := hfail 0 (by omega)
    have h1 := hfail 1 (by omega)
    simp at hsucc
    simp [retry, retryGo, h0, h1, hsucc, List.range_succ]
  · have h0 := hfail 0 (by omega)
    have h1 := hfail 1 (by omega)
    have h2 := hfail 2 (by omega)
    simp at hsucc
    simp [retry, retryGo, h0, h1, h2, hsucc, List.range_succ]
  · have h0 := hfail 0 (by omega)
    have h1 := hfail 1 (by omega)
    have h2 := hfail 2 (by omega)
    have h3 := hfail 3 (by omega)
    simp at hsucc
    simp [retry, retryGo, h0, h1, h2, h3, hsucc, List.range_succ]
  · have h0 := hfail 0 (by omega)
    have h1 := hfail 1 (by omega)
    have h2 := hfail 2 (by omega)
    have h3 := hfail 3 (by omega)
    have h4 := hfail 4 (by omega)
    simp at hsucc
    simp [retry, retryGo, h0, h1, h2, h3, h4, hsucc, List.range_succ]

/-- Witness for claim C6: an operation failing on invocations 0 and 1 and
succeeding with 42 on invocation 2 returns 42 after sleeping 1 then 2. -/
theorem retry_success_path_witness :
    retry (fun k => if k < 2 then (Except.error 0 : Except Nat Nat)
      else Except.ok 42) = (3, [1, 2], Except.ok 42) := by
  rw [retry_success_path
    (fun k => if k < 2 then (Except.error 0 : Except Nat Nat)
      else Except.ok 42)
    (fun _ => 0) 42 3 (by decide) (by decide)
    (fun k hk => by
      have hk2 : k = 0 ∨ k = 1 := by omega
      rcases hk2 with h | h <;> subst h <;> rfl)
    rfl]
  rfl
